import Mathlib

/-!
Verification of the UnifiedLogReader repository (Apple unified-logging
tracev3/dsc parser) against its natural-language specification.

The Python sources are shallowly embedded: byte strings become `List ℕ`
(one natural per byte, each < 256 in real inputs), little-endian
`struct.unpack` reads become arithmetic on byte slices, Python
exceptions become an explicit `PyExc` error type threaded through
`Except`, Python dicts (which preserve insertion order) become
association lists, and Python float arithmetic in the timesync
conversion is modelled exactly over `ℚ`.
-/

namespace UnifiedLog

/-- Python exception kinds that the embedded code can raise or catch. -/
inductive PyExc where
  | nameError
  | valueError
  | keyError
  | indexError
  | attributeError
  | structError
  | userWarning
  | importError
  | unboundLocalError
  | ioError
  | osError
  deriving DecidableEq, Repr

/-- Little-endian interpretation of a byte list (first byte is least
significant), as done by `struct.unpack` with `<` formats. -/
def leNat : List ℕ → ℕ
  | [] => 0
  | b :: rest => b + 256 * leNat rest

/-- `data[off : off+len]` — Python bytes slicing (short reads allowed). -/
def byteSlice (data : List ℕ) (off len : ℕ) : List ℕ :=
  (data.drop off).take len

/-! ## Timesync store

Embeds `TraceV3._FindClosestTimesyncItemInList` and
`TraceV3.time_from_continuoustime` from `UnifiedLog/tracev3_file.py`.
The timesync item class itself lives in the `resources` module which is
not part of the provided sources; only the four fields the embedded
functions read are carried. -/

/-- Modelled from the spec: a timesync item of the missing `resources`
module, carrying `(continuous_time, wall_clock_stamp, numerator,
denominator)`; these are exactly the attributes `tracev3_file.py` reads
(`continuousTime`, `time_stamp`, `ts_numerator`, `ts_denominator`). -/
structure TimesyncItem where
  continuousTime : ℕ
  time_stamp : ℤ
  ts_numerator : ℕ
  ts_denominator : ℕ
  deriving DecidableEq, Repr

/-- The `for item in ts_items` loop of `_FindClosestTimesyncItemInList`:
`closest` is replaced while `item.continuousTime ≤ ct`, and the loop
breaks at the first item with `continuousTime > ct`. -/
def FindClosestAux (ct : ℕ) (closest : TimesyncItem) :
    List TimesyncItem → TimesyncItem
  | [] => closest
  | item :: rest =>
      if item.continuousTime > ct then closest
      else FindClosestAux ct item rest

/-- `TraceV3._FindClosestTimesyncItemInList` (tracev3_file.py:149-160):
returns `None` for an empty list, otherwise starts with `ts_items[0]`
and scans the whole list. -/
def FindClosestTimesyncItemInList (ts_items : List TimesyncItem) (ct : ℕ) :
    Option TimesyncItem :=
  match ts_items with
  | [] => none
  | first :: _ => some (FindClosestAux ct first (first :: ts_items.tail))

/-- `TraceV3.time_from_continuoustime` (tracev3_file.py:1068-1071) with
`ts=None`: finds the closest timesync item, then computes
`ts.time_stamp + (ct - ts.continuousTime) * (1.0 * ts.ts_numerator) /
ts.ts_denominator`. Float arithmetic is modelled exactly over `ℚ`;
`none` models the `AttributeError` Python would raise on a `None` item. -/
def time_from_continuoustime (items : List TimesyncItem) (ct : ℕ) : Option ℚ :=
  match FindClosestTimesyncItemInList items ct with
  | none => none
  | some ts =>
      some ((ts.time_stamp : ℚ) +
        ((ct : ℚ) - (ts.continuousTime : ℚ)) *
          ((1 : ℚ) * (ts.ts_numerator : ℚ)) / (ts.ts_denominator : ℚ))

/-- The spec's description of `closest(items, ct)`: the last item whose
`continuous_time ≤ ct`, or the first item when `ct` precedes all items
(stated via `takeWhile`, which under sortedness collects exactly the
items with `continuous_time ≤ ct`). -/
def closestSpec (items : List TimesyncItem) (ct : ℕ) : Option TimesyncItem :=
  match items with
  | [] => none
  | first :: _ =>
      some (((items.takeWhile
        (fun i => decide (i.continuousTime ≤ ct))).getLast?).getD first)

/-! ## Record batching in `TraceV3._ParseFileObject`

tracev3_file.py:376-382: after each top-level chunk, if the pending
`logs` list exceeds 100000 entries it is handed to
`log_list_process_func` and reset to `[]`; after the loop a non-empty
remainder is flushed. -/

/-- One iteration's batching decision: `logs` has just been extended by
the records of the current chunk; deliver and reset when
`len(logs) > 100000`. -/
def batchStep {α : Type} (acc : List (List α) × List α) (chunk : List α) :
    List (List α) × List α :=
  let logs := acc.2 ++ chunk
  if logs.length > 100000 then (acc.1 ++ [logs], []) else (acc.1, logs)

/-- The chunk loop of `_ParseFileObject`, restricted to its batching
effect: first component collects the batches delivered inside the loop,
second is the pending `logs` list. -/
def batchLoop {α : Type} (chunks : List (List α)) :
    List (List α) × List α :=
  chunks.foldl batchStep ([], [])

/-- All batches delivered to the sink callback: the in-loop deliveries
plus the final flush of a non-empty remainder (tracev3_file.py:380-382). -/
def deliveredBatches {α : Type} (chunks : List (List α)) : List (List α) :=
  let r := batchLoop chunks
  if r.2.length > 0 then r.1 ++ [r.2] else r.1

/-! ## The `uncompressed_file_pos` counter in `TraceV3._ParseFileObject` -/

/-- The per-chunk update of `uncompressed_file_pos`
(tracev3_file.py:348-373): the counter advances by
`16 + uncompressed_chunk_data_size` for a `0x600D` chunk and by
`16 + chunk_data_size` for any other tag; then `chunk_data_size` is
rounded up to a multiple of 8, and if the counter is not 8-byte aligned
the code adds `8 - (chunk_data_size % 8)` — computed from the
already-rounded `chunk_data_size`, hence always `8`. -/
def advanceUncompressedPos (uncompressed_file_pos tag chunk_data_size
    uncompressed_chunk_data_size : ℕ) : ℕ :=
  let posAfter := uncompressed_file_pos +
    (if tag = 0x600D then 16 + uncompressed_chunk_data_size
     else 16 + chunk_data_size)
  let cds := if chunk_data_size % 8 ≠ 0 then
      chunk_data_size + (8 - chunk_data_size % 8)
    else chunk_data_size
  if posAfter % 8 ≠ 0 then posAfter + (8 - cds % 8) else posAfter

/-! ## Firehose tracepoint level derivation -/

/-- The level-related outcome of the block at tracev3_file.py:496-514:
the record's `log_type` string, the `is_signpost` flag and the signpost
format string built by concatenation (before `spid` substitution). -/
structure LevelInfo where
  log_type : String
  is_signpost : Bool
  signpost_fmt : String
  deriving DecidableEq, Repr

/-- The level-derivation block of `_ParseFirehoseTracepointData`
(tracev3_file.py:496-514). `log_type` is initialized to `"Default"`
and — notably — never set to `"Signpost"` in the `logtype & 0x80`
branch (whose source comment reads `# signpost (Default)`). -/
def deriveLevel (record_type logtype : ℕ) : LevelInfo :=
  let log_type := "Default"
  let signpost_string := "spid 0x%x,"
  if logtype &&& 0x80 ≠ 0 then
    let signpost_string :=
      if logtype &&& 0xC0 = 0xC0 then signpost_string ++ " system,"
      else signpost_string ++ " process,"
    let signpost_string :=
      if logtype &&& 0x82 = 0x82 then signpost_string ++ " end"
      else if logtype &&& 0x81 = 0x81 then signpost_string ++ " begin"
      else signpost_string ++ " event"
    ⟨log_type, true, signpost_string⟩
  else if logtype = 0x01 then
    if record_type &&& 0x0F = 0x02 then ⟨"Activity", false, signpost_string⟩
    else ⟨"Info", false, signpost_string⟩
  else if logtype = 0x02 then ⟨"Debug", false, signpost_string⟩
  else if logtype = 0x10 then ⟨"Error", false, signpost_string⟩
  else if logtype = 0x11 then ⟨"Fault", false, signpost_string⟩
  else ⟨log_type, false, signpost_string⟩

/-- Python `'%x' % n`: lowercase hexadecimal, no padding. -/
def pyHex (n : ℕ) : String :=
  String.mk (Nat.toDigits 16 n)

/-- Replaces the first `%x` in a character list by `sub` (Python's `%`
formatting applied to a format string with one `%x` specifier). -/
def replacePercentX : List Char → List Char → List Char
  | [], _ => []
  | '%' :: 'x' :: rest, sub => sub ++ rest
  | c :: rest, sub => c :: replacePercentX rest sub

/-- The `signpost_string % spid_val` substitution at
tracev3_file.py:684 (the format string holds one `%x` specifier). -/
def substSpid (fmt : String) (spid : ℕ) : String :=
  String.mk (replacePercentX fmt.data (pyHex spid).data)

/-! ## The shared-cache strings (dsc) file: `UnifiedLog/dsc_file.py`

Byte-level embedding of `Dsc._ParseFileObject`, `Dsc.Parse` and
`Dsc.FindVirtualOffsetEntries`. A Python file object becomes a byte
list plus a cursor; `read(n)` returns up to `n` bytes and advances by
the number returned; `struct.unpack` raises `struct.error` unless the
buffer length matches the format exactly. -/

/-- A range entry `[uuid_index, v_off, data_offset, data_len]`. -/
structure RangeEntry where
  uuid_index : ℕ
  v_off : ℕ
  data_offset : ℕ
  data_len : ℕ
  deriving DecidableEq, Repr

/-- A uuid entry `[v_off, size, uuid, lib_path, lib_name]` (the uuid
and both strings kept as raw bytes). -/
structure UuidEntry where
  v_off : ℕ
  size : ℕ
  uuid : List ℕ
  lib_path : List ℕ
  lib_name : List ℕ
  deriving DecidableEq, Repr

/-- The attributes of a parsed `Dsc` object that the embedded methods
read. `range_entries` models the insertion-ordered Python dict
`{v_off: entry}` as an association list. -/
structure DscState where
  format_version : String
  range_entries : List (ℕ × RangeEntry)
  range_entry_offsets : List ℕ
  num_range_entries : ℕ
  uuid_entries : List UuidEntry
  uuid_entry_dict : List (ℕ × UuidEntry)
  uuid_entry_offsets : List ℕ
  num_uuid_entries : ℕ
  deriving DecidableEq, Repr

/-- A Python file object: contents plus cursor. -/
structure FileObj where
  data : List ℕ
  pos : ℕ
  deriving DecidableEq, Repr

/-- `file_object.read(n)`: up to `n` bytes from the cursor, advancing
by the number of bytes actually returned. -/
def fread (f : FileObj) (n : ℕ) : List ℕ × FileObj :=
  let bs := byteSlice f.data f.pos n
  (bs, ⟨f.data, f.pos + bs.length⟩)

/-- Modelled from the spec: `_ReadCString` of the missing
`data_format` module — a NUL-terminated C-string read, returned here
as its raw bytes (everything before the first 0 byte). -/
def readCString : List ℕ → List ℕ
  | [] => []
  | b :: rest => if b = 0 then [] else b :: readCString rest

/-- `posixpath.basename` (library function): the suffix after the
last `/` (byte 0x2F). -/
def basenameBytes (path : List ℕ) : List ℕ :=
  ((path.reverse.takeWhile (fun b => decide (b ≠ 47))).reverse)

/-- The `while len(self.range_entries) < num_range_entries` loop of
`Dsc._ParseFileObject` (dsc_file.py:71-91): reads one 16-byte (v1) or
24-byte (v2) record per iteration, raising `ValueError` when a
duplicate `v_off` is seen and `UserWarning` for any other major
version. -/
def parseRangeEntries (major : ℕ) :
    ℕ → FileObj → List (ℕ × RangeEntry) →
    Except PyExc (List (ℕ × RangeEntry) × FileObj)
  | 0, f, acc => .ok (acc, f)
  | remaining + 1, f, acc =>
      if major = 1 then
        let r := fread f 16
        if r.1.length = 16 then
          let uuid_index := leNat (byteSlice r.1 0 4)
          let v_off := leNat (byteSlice r.1 4 4)
          let data_offset := leNat (byteSlice r.1 8 4)
          let data_len := leNat (byteSlice r.1 12 4)
          if (acc.lookup v_off).isSome then .error .valueError
          else
            parseRangeEntries major remaining r.2
              (acc ++ [(v_off, ⟨uuid_index, v_off, data_offset, data_len⟩)])
        else .error .structError
      else if major = 2 then
        let r := fread f 24
        if r.1.length = 24 then
          let v_off := leNat (byteSlice r.1 0 8)
          let data_offset := leNat (byteSlice r.1 8 4)
          let data_len := leNat (byteSlice r.1 12 4)
          let uuid_index := leNat (byteSlice r.1 16 8)
          if (acc.lookup v_off).isSome then .error .valueError
          else
            parseRangeEntries major remaining r.2
              (acc ++ [(v_off, ⟨uuid_index, v_off, data_offset, data_len⟩)])
        else .error .structError
      else .error .userWarning

/-- The `while len(self.uuid_entries) < num_uuid_entries` loop of
`Dsc._ParseFileObject` (dsc_file.py:96-131): seeks to the running
entry offset, reads a 28-byte (v1) or 32-byte (v2) record, reads the
library path C-string at its `data_offset`, and raises `ValueError`
on a duplicate `v_off`. -/
def parseUuidEntries (major : ℕ) (data : List ℕ) :
    ℕ → ℕ → List UuidEntry → List (ℕ × UuidEntry) →
    Except PyExc (List UuidEntry × List (ℕ × UuidEntry))
  | 0, _, entries, dict => .ok (entries, dict)
  | remaining + 1, off, entries, dict =>
      if major = 1 then
        let bs := byteSlice data off 28
        if (byteSlice bs 0 8).length ≠ 8 then .error .structError
        else if (byteSlice bs 8 16).length ≠ 16 then .error .valueError
        else if (byteSlice bs 24 4).length ≠ 4 then .error .structError
        else
          let v_off := leNat (byteSlice bs 0 4)
          let size := leNat (byteSlice bs 4 4)
          let uuid := byteSlice bs 8 16
          let data_offset := leNat (byteSlice bs 24 4)
          let lib_path := readCString (byteSlice data data_offset 1024)
          let e : UuidEntry := ⟨v_off, size, uuid, lib_path,
            basenameBytes lib_path⟩
          if (dict.lookup v_off).isSome then .error .valueError
          else
            parseUuidEntries major data remaining (off + 28)
              (entries ++ [e]) (dict ++ [(v_off, e)])
      else if major = 2 then
        let bs := byteSlice data off 32
        if (byteSlice bs 0 12).length ≠ 12 then .error .structError
        else if (byteSlice bs 12 16).length ≠ 16 then .error .valueError
        else if (byteSlice bs 28 4).length ≠ 4 then .error .structError
        else
          let v_off := leNat (byteSlice bs 0 8)
          let size := leNat (byteSlice bs 8 4)
          let uuid := byteSlice bs 12 16
          let data_offset := leNat (byteSlice bs 28 4)
          let lib_path := readCString (byteSlice data data_offset 1024)
          let e : UuidEntry := ⟨v_off, size, uuid, lib_path,
            basenameBytes lib_path⟩
          if (dict.lookup v_off).isSome then .error .valueError
          else
            parseUuidEntries major data remaining (off + 32)
              (entries ++ [e]) (dict ++ [(v_off, e)])
      else .error .userWarning

/-- `Dsc._ParseFileObject` (dsc_file.py:40-138). On a signature
mismatch the source evaluates `binascii.hexlify(...)`, but `binascii`
is never imported in `dsc_file.py`, so that branch raises `NameError`
instead of reaching its `return False`. A major version above 2
raises `UserWarning`. -/
def dscParseFileObject (data : List ℕ) : Except PyExc DscState :=
  let r0 := fread ⟨data, 0⟩ 16
  let file_header_data := r0.1
  if byteSlice file_header_data 0 4 ≠ [104, 99, 115, 100] then
    .error .nameError
  else if (byteSlice file_header_data 4 12).length ≠ 12 then
    .error .structError
  else
    let major := leNat (byteSlice file_header_data 4 2)
    let minor := leNat (byteSlice file_header_data 6 2)
    let num_range := leNat (byteSlice file_header_data 8 4)
    let num_uuid := leNat (byteSlice file_header_data 12 4)
    if major > 2 then .error .userWarning
    else
      match parseRangeEntries major num_range r0.2 [] with
      | .error e => .error e
      | .ok (ranges, f1) =>
          let offsets := List.insertionSort (· ≤ ·) (ranges.map Prod.fst)
          match parseUuidEntries major data num_uuid f1.pos [] [] with
          | .error e => .error e
          | .ok (uuids, udict) =>
              let uoffsets :=
                List.insertionSort (· ≤ ·) (udict.map Prod.fst)
              .ok { format_version := toString major ++ "." ++ toString minor,
                    range_entries := ranges,
                    range_entry_offsets := offsets,
                    num_range_entries := offsets.length,
                    uuid_entries := uuids,
                    uuid_entry_dict := udict,
                    uuid_entry_offsets := uoffsets,
                    num_uuid_entries := uoffsets.length }

/-- `Dsc.Parse` (dsc_file.py:235-258): catches only `IOError`,
`OSError` and `struct.error` (returning `False`); any other exception
— in particular the `NameError` from the signature branch, the
`ValueError` on duplicate `v_off` and the `UserWarning` on an
unsupported version — propagates to the caller. -/
def dscParse (data : List ℕ) : Except PyExc Bool :=
  match dscParseFileObject data with
  | .ok _ => .ok true
  | .error .structError => .ok false
  | .error e => .error e

/-- The loop of `bisect.bisect_right`, with an explicit fuel counter
standing in for the `while lo < hi` termination argument (each
iteration shrinks `hi - lo` by at least 1, so `hi - lo` units of fuel
reproduce the loop exactly). -/
def bisectRightAux (l : List ℕ) (x : ℕ) : ℕ → ℕ → ℕ → ℕ
  | 0, lo, _ => lo
  | fuel + 1, lo, hi =>
      if lo < hi then
        if x < l.getD ((lo + hi) / 2) 0 then
          bisectRightAux l x fuel lo ((lo + hi) / 2)
        else bisectRightAux l x fuel ((lo + hi) / 2 + 1) hi
      else lo

/-- `bisect.bisect_right(a, x, lo, hi)` (Python standard library):
binary search returning the insertion point to the right of existing
entries equal to `x`. -/
def bisectRight (l : List ℕ) (x : ℕ) (lo hi : ℕ) : ℕ :=
  bisectRightAux l x (hi - lo) lo hi

/-- `Dsc.FindVirtualOffsetEntries` (dsc_file.py:140-162):
`bisect_right` over `range_entry_offsets`, check the previous range,
accept only if `v_off + data_len > v_offset`, and pair with
`uuid_entries[uuid_index]`. `(None, None)` becomes `.ok none`; Python
`IndexError`/`KeyError` on malformed state become errors. -/
def FindVirtualOffsetEntries (st : DscState) (v_offset : ℕ) :
    Except PyExc (Option (RangeEntry × UuidEntry)) :=
  let pos := bisectRight st.range_entry_offsets v_offset 0
    st.num_range_entries
  if pos > 0 then
    match st.range_entry_offsets.get? (pos - 1) with
    | none => .error .indexError
    | some range_offset =>
        match st.range_entries.lookup range_offset with
        | none => .error .keyError
        | some a =>
            if a.v_off + a.data_len > v_offset then
              match st.uuid_entries.get? a.uuid_index with
              | none => .error .indexError
              | some u => .ok (some (a, u))
            else .ok none
  else .ok none

/-- Non-overlap of consecutive ranges, stated over the sorted offset
list as the claim does: each offset must be a live key and its entry
must end at or before the next offset. -/
def nonOverlapRel (st : DscState) (k k' : ℕ) : Bool :=
  match st.range_entries.lookup k with
  | some e => decide (k + e.data_len ≤ k')
  | none => false

/-- Boolean chain check of `nonOverlapRel` over consecutive elements. -/
def nonOverlapChainB (st : DscState) : List ℕ → Bool
  | k :: k' :: rest => nonOverlapRel st k k' && nonOverlapChainB st (k' :: rest)
  | _ => true

/-- The claim's non-overlap invariant, required only between
consecutive entries of the sorted offset list. -/
def NonOverlap (st : DscState) : Prop :=
  nonOverlapChainB st st.range_entry_offsets = true

instance decNonOverlap (st : DscState) : Decidable (NonOverlap st) :=
  instDecidableEqBool (nonOverlapChainB st st.range_entry_offsets) true

/-- The parsed state of `dscOverlapInput` (computed by the model and
checked against it by `rfl` in the proofs below). -/
def dscOverlapState : DscState :=
  { format_version := "1.0",
    range_entries := [(0, ⟨0, 0, 0, 100⟩), (50, ⟨0, 50, 0, 10⟩)],
    range_entry_offsets := [0, 50],
    num_range_entries := 2,
    uuid_entries := [⟨0, 4096, List.replicate 16 0, [47, 97], [97]⟩],
    uuid_entry_dict := [(0, ⟨0, 4096, List.replicate 16 0, [47, 97], [97]⟩)],
    uuid_entry_offsets := [0],
    num_uuid_entries := 1 }

/-- A 16-byte input whose first four bytes are not `hcsd`. -/
def dscBadSigInput : List ℕ := List.replicate 16 0

/-- A syntactically valid dsc header with major version 3. -/
def dscMajor3Input : List ℕ :=
  [104, 99, 115, 100, 3, 0, 0, 0, 0, 0, 0, 0, 0, 0, 0, 0]

/-- A complete v1 dsc file with two overlapping range entries
(`[0, 100)` and `[50, 60)`) and one uuid entry whose path is "/a". -/
def dscOverlapInput : List ℕ :=
  [104, 99, 115, 100, 1, 0, 0, 0, 2, 0, 0, 0, 1, 0, 0, 0] ++
  [0, 0, 0, 0, 0, 0, 0, 0, 0, 0, 0, 0, 100, 0, 0, 0] ++
  [0, 0, 0, 0, 50, 0, 0, 0, 0, 0, 0, 0, 10, 0, 0, 0] ++
  [0, 0, 0, 0, 0, 16, 0, 0] ++ List.replicate 16 0 ++ [76, 0, 0, 0] ++
  [47, 97, 0]

/-- A v1 dsc file with two range entries sharing `v_off = 5`. -/
def dscDupInput : List ℕ :=
  [104, 99, 115, 100, 1, 0, 0, 0, 2, 0, 0, 0, 0, 0, 0, 0] ++
  [0, 0, 0, 0, 5, 0, 0, 0, 0, 0, 0, 0, 1, 0, 0, 0] ++
  [0, 0, 0, 0, 5, 0, 0, 0, 0, 0, 0, 0, 1, 0, 0, 0]

/-! ## Firehose tracepoint parsing: the per-tracepoint exception
contract (`_ParseFirehoseTracepointData`, tracev3_file.py:440-782) -/

/-- Modelled from the spec: `resources.LogEntry` (the `resources`
module is not under src/); only fields the claims inspect are
carried. -/
structure LogEntry where
  log_file_pos : ℕ
  ct : ℕ
  log_type : String
  log_msg : String
  deriving DecidableEq, Repr

/-- The 24-byte fixed tracepoint header, `struct.unpack('<BBHIQIHH',
tracepoint_data[:24])` (tracev3_file.py:462-463). -/
structure TracepointHeader where
  record_type : ℕ
  logtype : ℕ
  flags : ℕ
  fmt_str_v_offset : ℕ
  thread : ℕ
  ct_rel : ℕ
  ct_rel_upper : ℕ
  log_data_len : ℕ
  deriving DecidableEq, Repr

/-- Unpacks the fixed header; a buffer shorter than 24 bytes raises
`struct.error` (this happens before the `try` block). -/
def unpackTracepointHeader (data : List ℕ) : Except PyExc TracepointHeader :=
  if (byteSlice data 0 24).length = 24 then
    .ok { record_type := leNat (byteSlice data 0 1),
          logtype := leNat (byteSlice data 1 1),
          flags := leNat (byteSlice data 2 2),
          fmt_str_v_offset := leNat (byteSlice data 4 4),
          thread := leNat (byteSlice data 8 8),
          ct_rel := leNat (byteSlice data 16 4),
          ct_rel_upper := leNat (byteSlice data 20 2),
          log_data_len := leNat (byteSlice data 22 2) }
  else .error .structError

/-- The exception kinds the per-tracepoint handler re-raises
(tracev3_file.py:775-776: `except (ImportError, NameError,
UnboundLocalError): raise`). -/
def tracepointReraised : PyExc → Bool
  | .importError => true
  | .nameError => true
  | .unboundLocalError => true
  | _ => false

/-- `_ParseFirehoseTracepointData` reduced to its exception contract:
the header is unpacked before the `try` block, the body (given here as
a function of the header — the claims under test do not depend on its
internals) runs inside it; `ImportError`/`NameError`/
`UnboundLocalError` are re-raised, every other exception is logged and
swallowed with `log_entry = None`; every non-raising path returns
`(24 + log_data_len, log_entry)` (tracev3_file.py:782). -/
def parseFirehoseTracepoint (tracepoint_data : List ℕ)
    (body : TracepointHeader → Except PyExc LogEntry) :
    Except PyExc (ℕ × Option LogEntry) :=
  match unpackTracepointHeader tracepoint_data with
  | .error e => .error e
  | .ok hdr =>
      match body hdr with
      | .ok entry => .ok (24 + hdr.log_data_len, some entry)
      | .error e =>
          if tracepointReraised e then .error e
          else .ok (24 + hdr.log_data_len, none)

/-! ## Oversize data: LargeDataStore and the fall-through -/

/-- Python dict assignment `d[k] = v` on an association list: replace
the existing binding, else append. -/
def storeSet (store : List (ℕ × List ℕ)) (k : ℕ) (v : List ℕ) :
    List (ℕ × List ℕ) :=
  if (store.lookup k).isSome then
    store.map (fun p => if p.1 = k then (k, v) else p)
  else store ++ [(k, v)]

/-- `TraceV3._ParseOversizeChunkData` (tracev3_file.py:957-976):
`ct, data_ref_id, data_len = struct.unpack('<QII', chunk_data[16:32])`,
then `large_data[data_ref_id << 64 | ct] = chunk_data[32:32+data_len]`. -/
def ParseOversizeChunkData (chunk_data : List ℕ)
    (large_data : List (ℕ × List ℕ)) :
    Except PyExc (List (ℕ × List ℕ)) :=
  if (byteSlice chunk_data 16 16).length = 16 then
    .ok (storeSet large_data
      ((leNat (byteSlice chunk_data 24 4) <<< 64) |||
        leNat (byteSlice chunk_data 16 8))
      (byteSlice chunk_data 32 (leNat (byteSlice chunk_data 28 4))))
  else .error .structError

/-- The outcome of the oversize-reference branch: the buffer (if any)
handed to `ReadLogDataBuffer`, and the possibly-replaced format
string. -/
structure OversizeOutcome where
  log_data : Option (List ℕ)
  format_str : String
  deriving DecidableEq, Repr

/-- The oversize-reference branch of `_ParseFirehoseTracepointData`
(tracev3_file.py:752-764): `log_data = self.large_data.get(
data_ref_id << 64 | ct, None)`; `if log_data:` is Python truthiness,
so a missing key — and equally a present-but-empty payload — takes the
error path that sets `format_str = "<decode: missing data>"`; a
non-empty payload becomes the log-data buffer. -/
def resolveOversizeRef (large_data : List (ℕ × List ℕ))
    (data_ref_id ct : ℕ) (format_str : String) : OversizeOutcome :=
  match large_data.lookup ((data_ref_id <<< 64) ||| ct) with
  | some d =>
      if d.isEmpty then ⟨none, "<decode: missing data>"⟩
      else ⟨some d, format_str⟩
  | none => ⟨none, "<decode: missing data>"⟩

/-- `log_msg = self.RecreateMsgFromFmtStringAndData(format_str,
log_data, ...) if log_data else format_str` (tracev3_file.py:764),
with the message reconstructor abstracted as `recreate`. -/
def oversizeLogMsg (o : OversizeOutcome)
    (recreate : List ℕ → String → String) : String :=
  match o.log_data with
  | some d => recreate d o.format_str
  | none => o.format_str

/-- A 32-byte oversize chunk with `ct = 100`, `data_ref_id = 5` and
`data_len = 0` (stores an empty payload). -/
def oversizeEmptyChunk : List ℕ :=
  List.replicate 16 0 ++ [100, 0, 0, 0, 0, 0, 0, 0] ++
  [5, 0, 0, 0] ++ [0, 0, 0, 0]

/-! ## ProcInfo resolution in `ProcessDataChunk` -/

/-- Modelled from the spec: `resources.ProcInfo` (module not under
src/); only the `pid` and `euid` attributes read by the embedded
fragment are carried. -/
structure ProcInfo where
  pid : ℕ
  euid : ℕ
  deriving DecidableEq, Repr

/-- Modelled from the spec: the catalog's ChunkMeta with its
`ProcInfos` dict keyed by `proc_id2 | (proc_id1 << 32)` (the
`resources` module is not under src/; the key expression is taken from
`GetProcInfo` in tracev3_file.py:1658). -/
structure ChunkMeta where
  ProcInfos : List (ℕ × ProcInfo)
  deriving DecidableEq, Repr

/-- `TraceV3.GetProcInfo` (tracev3_file.py:1657-1661):
`chunk_meta.ProcInfos.get(proc_id2 | (proc_id1 << 32), None)`. -/
def GetProcInfo (proc_id1 proc_id2 : ℕ) (chunk_meta : ChunkMeta) :
    Option ProcInfo :=
  chunk_meta.ProcInfos.lookup (proc_id2 ||| (proc_id1 <<< 32))

/-- Python attribute access `obj.attr` where `obj` may be `None`:
raises `AttributeError` on `None`. -/
def pyAttr {α β : Type} (o : Option α) (f : α → β) : Except PyExc β :=
  match o with
  | some x => .ok (f x)
  | none => .error .attributeError

/-- One iteration of `TraceV3.ProcessDataChunk`
(tracev3_file.py:1598-1622) up to the pid/euid reads: parse the
16-byte sub-chunk header, read `(proc_id1, proc_id2, ttl)`, resolve
`proc_info`; the `if not proc_info:` branch (1610-1619) only logs and
advances `pos` — it has no `continue` — so control always reaches
`pid = proc_info.pid` (1620), which on `None` raises
`AttributeError`. -/
def processDataChunkStep (chunk_data : List ℕ) (pos : ℕ)
    (chunk_meta : ChunkMeta) : Except PyExc (ℕ × ℕ) :=
  if (byteSlice chunk_data pos 16).length = 16 then
    if (byteSlice chunk_data (pos + 16) 16).length = 16 then
      let proc_id1 := leNat (byteSlice chunk_data (pos + 16) 8)
      let proc_id2 := leNat (byteSlice chunk_data (pos + 16 + 8) 4)
      let proc_info := GetProcInfo proc_id1 proc_id2 chunk_meta
      match pyAttr proc_info (fun p => p.pid) with
      | .error e => .error e
      | .ok pid =>
          match pyAttr proc_info (fun p => p.euid) with
          | .error e => .error e
          | .ok euid => .ok (pid, euid)
    else .error .structError
  else .error .structError

/-- The exception kinds `TraceV3.Parse` catches
(tracev3_file.py:1699: `except (AttributeError, IOError, OSError,
ValueError, struct.error)`). -/
def traceV3Caught : PyExc → Bool
  | .attributeError => true
  | .ioError => true
  | .osError => true
  | .valueError => true
  | .structError => true
  | _ => false

/-- `TraceV3.Parse` (tracev3_file.py:1694-1709) reduced to its
exception handling: a caught exception from `_ParseFileObject` (which
`ProcessDataChunk`'s exceptions propagate through) makes it return
`False` for the whole file; others propagate. -/
def traceV3Parse (result : Except PyExc Bool) : Except PyExc Bool :=
  match result with
  | .ok b => .ok b
  | .error e => if traceV3Caught e then .ok false else .error e

lemma findClosestAux_eq_takeWhile (ct : ℕ) (c : TimesyncItem)
    (l : List TimesyncItem) :
    FindClosestAux ct c l =
      ((l.takeWhile (fun i => decide (i.continuousTime ≤ ct))).getLast?).getD c := by
  induction l generalizing c with
  | nil => simp [FindClosestAux]
  | cons i rest ih =>
      by_cases h : i.continuousTime ≤ ct
      · have hnot : ¬ (i.continuousTime > ct) := not_lt.mpr h
        rw [FindClosestAux, if_neg hnot, ih i]
        rw [List.takeWhile_cons, if_pos (by simpa using h)]
        cases hrw : rest.takeWhile (fun i => decide (i.continuousTime ≤ ct)) with
        | nil => simp
        | cons a as =>
            rw [List.getLast?_cons_cons,
              List.getLast?_eq_getLast (a :: as) (by simp)]
            simp
      · have hgt : i.continuousTime > ct := not_le.mp h
        rw [FindClosestAux, if_pos hgt]
        rw [List.takeWhile_cons, if_neg (by simpa using h)]
        simp

lemma findClosest_eq_closestSpec (items : List TimesyncItem) (ct : ℕ) :
    FindClosestTimesyncItemInList items ct = closestSpec items ct := by
  cases items with
  | nil => rfl
  | cons first rest =>
      simp only [FindClosestTimesyncItemInList, closestSpec, List.tail_cons]
      rw [findClosestAux_eq_takeWhile]

lemma mem_takeWhile_of_sorted_le {items : List TimesyncItem} {ct : ℕ}
    (hs : items.Pairwise (fun a b => a.continuousTime ≤ b.continuousTime))
    {J : TimesyncItem} (hJ : J ∈ items) (hle : J.continuousTime ≤ ct) :
    J ∈ items.takeWhile (fun i => decide (i.continuousTime ≤ ct)) := by
  induction items with
  | nil => cases hJ
  | cons i rest ih =>
      have hs' := (List.pairwise_cons.mp hs)
      rcases List.mem_cons.mp hJ with rfl | hJr
      · rw [List.takeWhile_cons, if_pos (by simpa using hle)]
        exact List.mem_cons_self _ _
      · have hile : i.continuousTime ≤ ct :=
          le_trans (hs'.1 J hJr) hle
        rw [List.takeWhile_cons, if_pos (by simpa using hile)]
        exact List.mem_cons_of_mem _ (ih hs'.2 hJr)

lemma mem_of_getLast?_eq {α : Type} {l : List α} {x : α}
    (h : l.getLast? = some x) : x ∈ l := by
  obtain ⟨hne, heq⟩ := List.mem_getLast?_eq_getLast (Option.mem_def.mpr h)
  rw [heq]
  exact List.getLast_mem hne

lemma pairwise_le_getLast {l : List TimesyncItem}
    (hs : l.Pairwise (fun a b => a.continuousTime ≤ b.continuousTime))
    {x last : TimesyncItem} (hx : x ∈ l) (hlast : l.getLast? = some last) :
    x.continuousTime ≤ last.continuousTime := by
  induction l with
  | nil => cases hx
  | cons a rest ih =>
      have hs' := List.pairwise_cons.mp hs
      cases rest with
      | nil =>
          simp only [List.getLast?_singleton, Option.some.injEq] at hlast
          rcases List.mem_singleton.mp hx with rfl
          exact hlast ▸ le_refl _
      | cons b bs =>
          rw [List.getLast?_cons_cons] at hlast
          rcases List.mem_cons.mp hx with rfl | hxr
          · exact hs'.1 last (mem_of_getLast?_eq hlast)
          · exact ih hs'.2 hxr hlast

/-- C1: for a timesync item list sorted by `continuous_time`,
`_FindClosestTimesyncItemInList` returns the last item with
`continuous_time ≤ ct` (the first item when `ct` precedes all items),
and `time_from_continuoustime` computes
`I.stamp + (ct − I.continuous_time) × I.numerator / I.denominator`
from the returned item `I`. -/
theorem closest_timesync_item_correct (items : List TimesyncItem) (ct : ℕ)
    (hs : items.Pairwise (fun a b => a.continuousTime ≤ b.continuousTime)) :
    FindClosestTimesyncItemInList items ct = closestSpec items ct ∧
    time_from_continuoustime items ct =
      (FindClosestTimesyncItemInList items ct).map
        (fun I => (I.time_stamp : ℚ) +
          ((ct : ℚ) - (I.continuousTime : ℚ)) *
            (I.ts_numerator : ℚ) / (I.ts_denominator : ℚ)) ∧
    (∀ I, FindClosestTimesyncItemInList items ct = some I →
      (I.continuousTime ≤ ct ∧
        ∀ J ∈ items, J.continuousTime ≤ ct →
          J.continuousTime ≤ I.continuousTime) ∨
      ((∀ J ∈ items, ct < J.continuousTime) ∧ items.head? = some I)) := by
  refine ⟨findClosest_eq_closestSpec items ct, ?_, ?_⟩
  · cases h : FindClosestTimesyncItemInList items ct with
    | none => simp [time_from_continuoustime, h]
    | some ts =>
        simp only [time_from_continuoustime, h, Option.map_some']
        congr 1
        rw [one_mul]
  · intro I hI
    rw [findClosest_eq_closestSpec] at hI
    cases items with
    | nil => cases hI
    | cons first rest =>
        simp only [closestSpec, Option.some.injEq] at hI
        cases htw : (first :: rest).takeWhile
            (fun i => decide (i.continuousTime ≤ ct)) with
        | nil =>
            right
            rw [htw] at hI
            simp only [List.getLast?_nil, Option.getD_none] at hI
            constructor
            · intro J hJ
              by_contra hnot
              have hle : J.continuousTime ≤ ct := not_lt.mp hnot
              have := mem_takeWhile_of_sorted_le hs hJ hle
              rw [htw] at this
              cases this
            · simp [hI]
        | cons a as =>
            left
            rw [htw] at hI
            have hlast : ((a :: as).getLast?) = some I := by
              rw [List.getLast?_eq_getLast (a :: as) (by simp)] at hI ⊢
              simp only [Option.getD_some] at hI
              rw [hI]
            have hImem : I ∈ (a :: as) := mem_of_getLast?_eq hlast
            have hImem' : I ∈ (first :: rest).takeWhile
                (fun i => decide (i.continuousTime ≤ ct)) := htw ▸ hImem
            have hIc : I.continuousTime ≤ ct := by
              have := List.mem_takeWhile_imp hImem'
              simpa using this
            refine ⟨hIc, ?_⟩
            intro J hJ hJle
            have hJtw := mem_takeWhile_of_sorted_le hs hJ hJle
            rw [htw] at hJtw
            have hsortedTw : (a :: as).Pairwise
                (fun x y => x.continuousTime ≤ y.continuousTime) := by
              have hsub : (a :: as).Sublist (first :: rest) := by
                rw [← htw]
                exact List.takeWhile_sublist _
              exact List.Pairwise.sublist hsub hs
            exact pairwise_le_getLast hsortedTw hJtw hlast

/-- Witness for `closest_timesync_item_correct` at spec scenario 6:
item `(continuous_time=1000, stamp=1.6e18, num=1, den=1)`, `ct=1500`. -/
theorem closest_timesync_item_correct_witness :
    FindClosestTimesyncItemInList
        [⟨1000, 1600000000000000000, 1, 1⟩] 1500 =
      closestSpec [⟨1000, 1600000000000000000, 1, 1⟩] 1500 ∧
    time_from_continuoustime [⟨1000, 1600000000000000000, 1, 1⟩] 1500 =
      (FindClosestTimesyncItemInList
          [⟨1000, 1600000000000000000, 1, 1⟩] 1500).map
        (fun I => (I.time_stamp : ℚ) +
          ((1500 : ℚ) - (I.continuousTime : ℚ)) *
            (I.ts_numerator : ℚ) / (I.ts_denominator : ℚ)) ∧
    (∀ I, FindClosestTimesyncItemInList
        [⟨1000, 1600000000000000000, 1, 1⟩] 1500 = some I →
      (I.continuousTime ≤ 1500 ∧
        ∀ J ∈ [(⟨1000, 1600000000000000000, 1, 1⟩ : TimesyncItem)],
          J.continuousTime ≤ 1500 →
          J.continuousTime ≤ I.continuousTime) ∨
      ((∀ J ∈ [(⟨1000, 1600000000000000000, 1, 1⟩ : TimesyncItem)],
          1500 < J.continuousTime) ∧
        [(⟨1000, 1600000000000000000, 1, 1⟩ : TimesyncItem)].head? = some I)) :=
  closest_timesync_item_correct
    [⟨1000, 1600000000000000000, 1, 1⟩] 1500 (by decide)

lemma batchLoop_invariant {α : Type} (chunks : List (List α))
    (sink : List (List α)) (pending : List α) :
    ((chunks.foldl batchStep (sink, pending)).1.flatten ++
        (chunks.foldl batchStep (sink, pending)).2 =
      sink.flatten ++ pending ++ chunks.flatten) ∧
    ((∀ b ∈ sink, 100000 < b.length) →
      ∀ b ∈ (chunks.foldl batchStep (sink, pending)).1,
        100000 < b.length) := by
  induction chunks generalizing sink pending with
  | nil => simp
  | cons c cs ih =>
      simp only [List.foldl_cons, List.flatten_cons]
      rw [show batchStep (sink, pending) c =
        if (pending ++ c).length > 100000 then (sink ++ [pending ++ c], [])
        else (sink, pending ++ c) from rfl]
      by_cases h : (pending ++ c).length > 100000
      · rw [if_pos h]
        refine ⟨?_, ?_⟩
        · rw [(ih (sink ++ [pending ++ c]) []).1]
          simp [List.append_assoc]
        · intro hs b hb
          refine (ih (sink ++ [pending ++ c]) []).2 ?_ b hb
          intro b' hb'
          rcases List.mem_append.mp hb' with h1 | h2
          · exact hs b' h1
          · rw [List.mem_singleton.mp h2]
            exact h
      · rw [if_neg h]
        refine ⟨?_, (ih sink (pending ++ c)).2⟩
        rw [(ih sink (pending ++ c)).1]
        simp [List.append_assoc]

/-- C9: during parsing of a tracev3 file the pending batch is delivered
and reset whenever it exceeds 100000 records, a non-empty remainder is
flushed at end of file, and the concatenation of delivered batches is
exactly the full record sequence in order — no record is delivered
twice and none is dropped. -/
theorem batching_delivers_all {α : Type} (chunks : List (List α)) :
    (deliveredBatches chunks).flatten = chunks.flatten ∧
    (∀ b ∈ (batchLoop chunks).1, 100000 < b.length) ∧
    (∀ b ∈ deliveredBatches chunks, b ≠ []) := by
  have hinv := batchLoop_invariant chunks [] []
  simp only [List.flatten_nil, List.nil_append] at hinv
  have hbig : ∀ b ∈ (batchLoop chunks).1, 100000 < b.length := by
    refine hinv.2 ?_
    intro b hb
    cases hb
  refine ⟨?_, hbig, ?_⟩
  · rw [deliveredBatches]
    by_cases h : (batchLoop chunks).2.length > 0
    · rw [if_pos h]
      have := hinv.1
      rw [batchLoop]
      rw [List.flatten_append]
      simpa using this
    · rw [if_neg h]
      have h2 : (batchLoop chunks).2 = [] :=
        List.eq_nil_of_length_eq_zero (by omega)
      have := hinv.1
      rw [batchLoop] at h2
      rw [h2, List.append_nil] at this
      rw [batchLoop]
      exact this
  · intro b hb
    rw [deliveredBatches] at hb
    by_cases h : (batchLoop chunks).2.length > 0
    · rw [if_pos h] at hb
      rcases List.mem_append.mp hb with h1 | h2
      · have := hbig b h1
        intro hnil
        rw [hnil] at this
        simp at this
      · rw [List.mem_singleton.mp h2]
        intro hnil
        rw [hnil] at h
        simp at h
    · rw [if_neg h] at hb
      have := hbig b hb
      intro hnil
      rw [hnil] at this
      simp at this

/-- C5: the `uncompressed_file_pos` counter advances by 16 plus the
decompressed size for a `0x600D` chunk and by `16 + data_size`
otherwise, but the alignment step fails to realign it: the pad amount
`8 - (chunk_data_size % 8)` is computed from the already-rounded
`chunk_data_size` and is therefore always 8, leaving the counter's
residue mod 8 unchanged. Starting aligned at 0, a metadata chunk of
data_size 4 leaves the counter at 28 (≡ 4 mod 8), and a `0x600D` chunk
of compressed size 4 and decompressed size 12 leaves it at 36
(≡ 4 mod 8): the padding is applied yet the counter is not a multiple
of 8, contradicting the claimed 8-byte alignment. -/
theorem uncompressed_pos_misaligned :
    advanceUncompressedPos 0 0x600B 4 0 = 28 ∧
    advanceUncompressedPos 0 0x600B 4 0 % 8 = 4 ∧
    advanceUncompressedPos 0 0x600D 4 12 = 36 ∧
    advanceUncompressedPos 0 0x600D 4 12 % 8 = 4 := by
  refine ⟨by decide, by decide, by decide, by decide⟩

lemma and128_of_ge {n : ℕ} (h1 : 128 ≤ n) (h2 : n < 256) :
    n &&& 128 ≠ 0 := by
  have ht : n.testBit 7 = true := by
    rw [Nat.testBit_to_div_mod]
    have hdiv : n / 2 ^ 7 = 1 := by
      rw [show (2 : ℕ) ^ 7 = 128 from rfl]
      omega
    rw [hdiv]
    decide
  have hand := Nat.and_two_pow n 7
  rw [show (2 : ℕ) ^ 7 = 128 from rfl] at hand
  rw [hand, ht]
  decide

lemma and128_of_lt {n : ℕ} (h : n < 128) : n &&& 128 = 0 := by
  have ht : n.testBit 7 = false := by
    rw [Nat.testBit_to_div_mod]
    have hdiv : n / 2 ^ 7 = 0 := by
      rw [show (2 : ℕ) ^ 7 = 128 from rfl]
      omega
    rw [hdiv]
    decide
  have hand := Nat.and_two_pow n 7
  rw [show (2 : ℕ) ^ 7 = 128 from rfl] at hand
  rw [hand, ht]
  decide

/-- C2 counterexample: a tracepoint with `logtype = 0x81` and signpost
id `0xDEADBEEF` gets signpost string "spid 0xdeadbeef, process, begin"
as claimed, but its level (`log_type`) is `"Default"`, not
`"Signpost"` — the string `"Signpost"` never appears in the source and
the signpost branch leaves `log_type` at its initial value. -/
theorem signpost_level_counterexample :
    (deriveLevel 0 0x81).log_type = "Default" ∧
    (deriveLevel 0 0x81).log_type ≠ "Signpost" ∧
    (deriveLevel 0 0x81).is_signpost = true ∧
    substSpid (deriveLevel 0 0x81).signpost_fmt 0xDEADBEEF =
      "spid 0xdeadbeef, process, begin" := by
  refine ⟨by decide, by decide, by decide, by decide⟩

/-- C2 (amended): level derivation from `logtype` as the code performs
it — `logtype` in `0x80..0xFF` marks the record as a signpost with the
claimed scope (`& 0xC0`) and type (`& 0x82` / `& 0x81`) encoded in the
signpost string, but the level stays `"Default"` (not `"Signpost"`);
`0x01` yields Activity when `(record_type & 0x0F) == 0x02` else Info;
`0x02` Debug, `0x10` Error, `0x11` Fault, anything else Default. The
`logtype = 0x81`, spid `0xDEADBEEF` example is emitted with signpost
string "spid 0xdeadbeef, process, begin" and level Default. -/
theorem level_derivation (record_type logtype : ℕ) (h8 : logtype < 256) :
    (0x80 ≤ logtype →
      (deriveLevel record_type logtype).log_type = "Default" ∧
      (deriveLevel record_type logtype).is_signpost = true ∧
      (deriveLevel record_type logtype).signpost_fmt =
        ("spid 0x%x," ++
          (if logtype &&& 0xC0 = 0xC0 then " system," else " process,")) ++
        (if logtype &&& 0x82 = 0x82 then " end"
         else if logtype &&& 0x81 = 0x81 then " begin" else " event")) ∧
    (logtype = 0x01 →
      (deriveLevel record_type logtype).log_type =
        (if record_type &&& 0x0F = 0x02 then "Activity" else "Info")) ∧
    (logtype = 0x02 → (deriveLevel record_type logtype).log_type = "Debug") ∧
    (logtype = 0x10 → (deriveLevel record_type logtype).log_type = "Error") ∧
    (logtype = 0x11 → (deriveLevel record_type logtype).log_type = "Fault") ∧
    (logtype < 0x80 → logtype ≠ 0x01 → logtype ≠ 0x02 → logtype ≠ 0x10 →
      logtype ≠ 0x11 →
      (deriveLevel record_type logtype).log_type = "Default" ∧
      (deriveLevel record_type logtype).is_signpost = false) ∧
    substSpid (deriveLevel 0 0x81).signpost_fmt 0xDEADBEEF =
      "spid 0xdeadbeef, process, begin" := by
  refine ⟨?_, ?_, ?_, ?_, ?_, ?_, by decide⟩
  · intro hge
    have hand : logtype &&& 0x80 ≠ 0 := and128_of_ge hge h8
    by_cases h1 : logtype &&& 0xC0 = 0xC0 <;>
      by_cases h2 : logtype &&& 0x82 = 0x82 <;>
        by_cases h3 : logtype &&& 0x81 = 0x81 <;>
          simp [deriveLevel, hand, h1, h2, h3]
  · rintro rfl
    by_cases hrc : record_type &&& 0x0F = 0x02 <;>
      simp [deriveLevel, hrc]
  · rintro rfl
    simp [deriveLevel, (by decide : (2 : ℕ) &&& 128 = 0)]
  · rintro rfl
    simp [deriveLevel, (by decide : (16 : ℕ) &&& 128 = 0)]
  · rintro rfl
    simp [deriveLevel, (by decide : (17 : ℕ) &&& 128 = 0)]
  · intro hlt hn1 hn2 hn3 hn4
    have hand : logtype &&& 0x80 = 0 := and128_of_lt hlt
    simp [deriveLevel, hand, hn1, hn2, hn3, hn4]

/-- Witness for `level_derivation` at `record_type = 0`,
`logtype = 0x81`. -/
theorem level_derivation_witness :
    (0x80 ≤ 0x81 →
      (deriveLevel 0 0x81).log_type = "Default" ∧
      (deriveLevel 0 0x81).is_signpost = true ∧
      (deriveLevel 0 0x81).signpost_fmt =
        ("spid 0x%x," ++
          (if (0x81 : ℕ) &&& 0xC0 = 0xC0 then " system," else " process,")) ++
        (if (0x81 : ℕ) &&& 0x82 = 0x82 then " end"
         else if (0x81 : ℕ) &&& 0x81 = 0x81 then " begin" else " event")) ∧
    ((0x81 : ℕ) = 0x01 →
      (deriveLevel 0 0x81).log_type =
        (if (0 : ℕ) &&& 0x0F = 0x02 then "Activity" else "Info")) ∧
    ((0x81 : ℕ) = 0x02 → (deriveLevel 0 0x81).log_type = "Debug") ∧
    ((0x81 : ℕ) = 0x10 → (deriveLevel 0 0x81).log_type = "Error") ∧
    ((0x81 : ℕ) = 0x11 → (deriveLevel 0 0x81).log_type = "Fault") ∧
    ((0x81 : ℕ) < 0x80 → (0x81 : ℕ) ≠ 0x01 → (0x81 : ℕ) ≠ 0x02 →
      (0x81 : ℕ) ≠ 0x10 → (0x81 : ℕ) ≠ 0x11 →
      (deriveLevel 0 0x81).log_type = "Default" ∧
      (deriveLevel 0 0x81).is_signpost = false) ∧
    substSpid (deriveLevel 0 0x81).signpost_fmt 0xDEADBEEF =
      "spid 0xdeadbeef, process, begin" :=
  level_derivation 0 0x81 (by decide)

lemma lookup_eq_none_iff {β : Type} (l : List (ℕ × β)) (k : ℕ) :
    l.lookup k = none ↔ k ∉ l.map Prod.fst := by
  induction l with
  | nil => simp
  | cons p rest ih =>
      cases p with
      | mk k' v =>
          by_cases hk : k = k'
          · subst hk
            have hbeq : (k == k) = true := beq_self_eq_true k
            simp [List.lookup, hbeq]
          · have hbeq : (k == k') = false := beq_eq_false_iff_ne.mpr hk
            simp [List.lookup, hbeq, ih, hk]

lemma lookup_mem {β : Type} {l : List (ℕ × β)} {k : ℕ} {v : β}
    (h : l.lookup k = some v) : (k, v) ∈ l := by
  induction l with
  | nil => simp [List.lookup] at h
  | cons p rest ih =>
      cases p with
      | mk k' v' =>
          by_cases hk : k = k'
          · subst hk
            have hbeq : (k == k) = true := beq_self_eq_true k
            simp only [List.lookup, hbeq] at h
            rw [Option.some.injEq] at h
            rw [← h]
            exact List.mem_cons_self _ _
          · have hbeq : (k == k') = false := beq_eq_false_iff_ne.mpr hk
            simp only [List.lookup, hbeq] at h
            exact List.mem_cons_of_mem _ (ih h)

lemma lookup_of_mem_nodup {β : Type} {l : List (ℕ × β)} {k : ℕ} {v : β}
    (hnd : (l.map Prod.fst).Nodup) (hm : (k, v) ∈ l) :
    l.lookup k = some v := by
  induction l with
  | nil => cases hm
  | cons p rest ih =>
      cases p with
      | mk k' v' =>
          rw [List.map_cons, List.nodup_cons] at hnd
          rcases List.mem_cons.mp hm with heq | hmr
          · rw [Prod.mk.injEq] at heq
            rcases heq with ⟨rfl, rfl⟩
            have hbeq : (k == k) = true := beq_self_eq_true k
            simp [List.lookup, hbeq]
          · have hk : k ≠ k' := by
              intro hkk
              subst hkk
              exact hnd.1 (List.mem_map.mpr ⟨(k, v), hmr, rfl⟩)
            have hbeq : (k == k') = false := beq_eq_false_iff_ne.mpr hk
            simp only [List.lookup, hbeq]
            exact ih hnd.2 hmr

lemma parseRangeEntries_nodup (major : ℕ) :
    ∀ (remaining : ℕ) (f : FileObj) (acc : List (ℕ × RangeEntry))
      (res : List (ℕ × RangeEntry) × FileObj),
    parseRangeEntries major remaining f acc = .ok res →
    (acc.map Prod.fst).Nodup → (res.1.map Prod.fst).Nodup := by
  intro remaining
  induction remaining with
  | zero =>
      intro f acc res h hnd
      simp only [parseRangeEntries] at h
      rw [Except.ok.injEq] at h
      rw [← h]
      exact hnd
  | succ n ih =>
      intro f acc res h hnd
      simp only [parseRangeEntries] at h
      split at h
      · split at h
        · split at h
          · exact absurd h (by simp)
          · rename_i hdup
            refine ih _ _ res h ?_
            rw [List.map_append, List.map_cons, List.map_nil]
            rw [List.nodup_append]
            refine ⟨hnd, List.nodup_singleton _, ?_⟩
            intro a ha hb
            rw [List.mem_singleton.mp hb] at ha
            rw [Option.not_isSome_iff_eq_none, lookup_eq_none_iff] at hdup
            exact hdup ha
        · exact absurd h (by simp)
      · split at h
        · split at h
          · split at h
            · exact absurd h (by simp)
            · rename_i hdup
              refine ih _ _ res h ?_
              rw [List.map_append, List.map_cons, List.map_nil]
              rw [List.nodup_append]
              refine ⟨hnd, List.nodup_singleton _, ?_⟩
              intro a ha hb
              rw [List.mem_singleton.mp hb] at ha
              rw [Option.not_isSome_iff_eq_none, lookup_eq_none_iff] at hdup
              exact hdup ha
          · exact absurd h (by simp)
        · exact absurd h (by simp)

/-- C6 counterexample: `dscOverlapInput` — a v1 dsc file whose two
range entries `[0, 100)` and `[50, 60)` overlap — parses successfully
(no non-overlap check exists in `_ParseFileObject`), so "range_entries
are pairwise non-overlapping for every successfully parsed dsc file"
is false: the first of the two consecutive sorted entries ends at
`0 + 100 = 100 > 50`. -/
theorem dsc_overlap_parses_counterexample :
    dscParseFileObject dscOverlapInput = .ok dscOverlapState ∧
    dscOverlapState.range_entry_offsets = [0, 50] ∧
    dscOverlapState.range_entries.lookup 0 = some ⟨0, 0, 0, 100⟩ ∧
    (0 : ℕ) + 100 > 50 ∧
    ¬ NonOverlap dscOverlapState := by
  refine ⟨by rfl, by rfl, by rfl, by decide, by decide⟩

/-- C6 (amended): for every successfully parsed dsc file the
`range_entry_offsets` are strictly sorted (so all `v_off` are unique)
and enumerate exactly the keys of `range_entries`, and parsing fails
with `ValueError` when a duplicate `v_off` is encountered — but
non-overlap of consecutive ranges is not checked and does not hold in
general (see the counterexample). -/
theorem dsc_parse_range_invariants (data : List ℕ) (st : DscState)
    (h : dscParseFileObject data = .ok st) :
    st.range_entry_offsets.Sorted (· < ·) ∧
    st.range_entry_offsets.Nodup ∧
    st.range_entry_offsets.Perm (st.range_entries.map Prod.fst) ∧
    dscParseFileObject dscDupInput = .error .valueError := by
  have hdup : dscParseFileObject dscDupInput = .error .valueError := by rfl
  simp only [dscParseFileObject] at h
  split at h
  · exact absurd h (by simp)
  · split at h
    · exact absurd h (by simp)
    · split at h
      · exact absurd h (by simp)
      · split at h
        · exact absurd h (by simp)
        · rename_i ranges f1 heqr
          split at h
          · exact absurd h (by simp)
          · rename_i uuids udict hequ
            rw [Except.ok.injEq] at h
            subst h
            have hkeysnd : (ranges.map Prod.fst).Nodup :=
              parseRangeEntries_nodup _ _ _ _ _ heqr (by simp)
            have hperm : (List.insertionSort (· ≤ ·)
                (ranges.map Prod.fst)).Perm
                (ranges.map Prod.fst) :=
              List.perm_insertionSort _ _
            have hnd : (List.insertionSort (· ≤ ·)
                (ranges.map Prod.fst)).Nodup :=
              hperm.nodup_iff.mpr hkeysnd
            have hsle : (List.insertionSort (· ≤ ·)
                (ranges.map Prod.fst)).Sorted (· ≤ ·) :=
              List.sorted_insertionSort _ _
            exact ⟨hsle.lt_of_le hnd, hnd, hperm, hdup⟩

/-- Witness for `dsc_parse_range_invariants` at the concrete input
`dscOverlapInput`, whose parse succeeds with state
`dscOverlapState`. -/
theorem dsc_parse_range_invariants_witness :
    dscOverlapState.range_entry_offsets.Sorted (· < ·) ∧
    dscOverlapState.range_entry_offsets.Nodup ∧
    dscOverlapState.range_entry_offsets.Perm
      (dscOverlapState.range_entries.map Prod.fst) ∧
    dscParseFileObject dscDupInput = .error .valueError :=
  dsc_parse_range_invariants dscOverlapInput dscOverlapState (by rfl)

lemma getD_eq_get {l : List ℕ} {i : ℕ} (h : i < l.length) :
    l.getD i 0 = l.get ⟨i, h⟩ := by
  rw [List.getD_eq_getElem l 0 h]
  simp

lemma getD_mem {l : List ℕ} {i : ℕ} (h : i < l.length) :
    l.getD i 0 ∈ l := by
  rw [getD_eq_get h]
  exact List.get_mem l i h

lemma sorted_le_getD_mono {l : List ℕ} (hs : l.Sorted (· ≤ ·)) {i j : ℕ}
    (hij : i ≤ j) (hj : j < l.length) : l.getD i 0 ≤ l.getD j 0 := by
  have hi : i < l.length := lt_of_le_of_lt hij hj
  rw [getD_eq_get hi, getD_eq_get hj]
  rcases Nat.lt_or_ge i j with hlt | hge
  · exact hs.rel_get_of_lt hlt
  · have : i = j := le_antisymm hij hge
    subst this
    exact le_refl _

lemma bisectRightAux_spec (l : List ℕ) (x : ℕ) (hs : l.Sorted (· ≤ ·)) :
    ∀ (fuel lo hi : ℕ), hi - lo ≤ fuel → lo ≤ hi → hi ≤ l.length →
    (∀ i, i < lo → l.getD i 0 ≤ x) →
    (∀ i, hi ≤ i → i < l.length → x < l.getD i 0) →
    lo ≤ bisectRightAux l x fuel lo hi ∧
    bisectRightAux l x fuel lo hi ≤ hi ∧
    (∀ i, i < bisectRightAux l x fuel lo hi → l.getD i 0 ≤ x) ∧
    (∀ i, bisectRightAux l x fuel lo hi ≤ i → i < l.length →
      x < l.getD i 0) := by
  intro fuel
  induction fuel with
  | zero =>
      intro lo hi hfuel hlohi hhil hlo hhi
      simp only [bisectRightAux]
      exact ⟨le_refl _, hlohi, hlo, fun i hi1 hi2 => hhi i (by omega) hi2⟩
  | succ n ih =>
      intro lo hi hfuel hlohi hhil hlo hhi
      simp only [bisectRightAux]
      by_cases hlt : lo < hi
      · rw [if_pos hlt]
        have hmidlt : (lo + hi) / 2 < hi := by omega
        have hmidge : lo ≤ (lo + hi) / 2 := by omega
        have hmidlen : (lo + hi) / 2 < l.length := lt_of_lt_of_le hmidlt hhil
        by_cases hx : x < l.getD ((lo + hi) / 2) 0
        · rw [if_pos hx]
          have h2 := ih lo ((lo + hi) / 2) (by omega) hmidge
            (le_of_lt hmidlen)
            hlo
            (fun i hi1 hi2 =>
              lt_of_lt_of_le hx (sorted_le_getD_mono hs hi1 hi2))
          exact ⟨h2.1, le_trans h2.2.1 (le_of_lt hmidlt), h2.2.2.1,
            h2.2.2.2⟩
        · rw [if_neg hx]
          have hxge : l.getD ((lo + hi) / 2) 0 ≤ x := not_lt.mp hx
          have h2 := ih ((lo + hi) / 2 + 1) hi (by omega) (by omega) hhil
            (fun i hi1 =>
              le_trans (sorted_le_getD_mono hs (by omega) hmidlen) hxge)
            hhi
          exact ⟨le_trans (by omega) h2.1, h2.2.1, h2.2.2.1, h2.2.2.2⟩
      · rw [if_neg hlt]
        exact ⟨le_refl _, hlohi, hlo, fun i hi1 hi2 => hhi i (by omega) hi2⟩

lemma bisectRight_spec (l : List ℕ) (x : ℕ) (hs : l.Sorted (· ≤ ·))
    (lo hi : ℕ) (hlohi : lo ≤ hi) (hhil : hi ≤ l.length)
    (hlo : ∀ i, i < lo → l.getD i 0 ≤ x)
    (hhi : ∀ i, hi ≤ i → i < l.length → x < l.getD i 0) :
    lo ≤ bisectRight l x lo hi ∧ bisectRight l x lo hi ≤ hi ∧
    (∀ i, i < bisectRight l x lo hi → l.getD i 0 ≤ x) ∧
    (∀ i, bisectRight l x lo hi ≤ i → i < l.length → x < l.getD i 0) := by
  unfold bisectRight
  exact bisectRightAux_spec l x hs (hi - lo) lo hi (le_refl _) hlohi hhil
    hlo hhi

lemma pairwise_of_mem_of_lt {R : ℕ → ℕ → Prop} {l : List ℕ}
    (hp : l.Pairwise R) (hs : l.Sorted (· < ·)) {a b : ℕ}
    (ha : a ∈ l) (hb : b ∈ l) (hab : a < b) : R a b := by
  induction l with
  | nil => cases ha
  | cons x xs ih =>
      rw [List.pairwise_cons] at hp
      rw [List.sorted_cons] at hs
      rcases List.mem_cons.mp ha with rfl | har
      · rcases List.mem_cons.mp hb with rfl | hbr
        · omega
        · exact hp.1 b hbr
      · rcases List.mem_cons.mp hb with rfl | hbr
        · exact absurd (hs.1 a har) (by omega)
        · exact ih hp.2 hs.2 har hbr

lemma nonOverlapChainB_chain' (st : DscState) :
    ∀ l : List ℕ, nonOverlapChainB st l = true →
      List.Chain' (fun k k' => nonOverlapRel st k k' = true) l := by
  intro l
  induction l with
  | nil => intro _; exact List.chain'_nil
  | cons k rest ih =>
      cases rest with
      | nil => intro _; simp
      | cons k' rest' =>
          intro h
          rw [nonOverlapChainB, Bool.and_eq_true] at h
          exact List.Chain'.cons h.1 (ih h.2)

/-- The relation underlying `NonOverlap` is transitive (a missing key
makes it false, so transitivity never passes through a dead offset). -/
lemma nonOverlapRel_trans (st : DscState) (a b c : ℕ)
    (hab : nonOverlapRel st a b = true) (hbc : nonOverlapRel st b c = true) :
    nonOverlapRel st a c = true := by
  unfold nonOverlapRel at *
  cases hea : st.range_entries.lookup a with
  | none => rw [hea] at hab; cases hab
  | some e =>
      rw [hea] at hab
      cases heb : st.range_entries.lookup b with
      | none => rw [heb] at hbc; cases hbc
      | some e' =>
          rw [heb] at hbc
          rw [decide_eq_true_iff] at hab hbc ⊢
          omega

lemma nonOverlap_pairwise {st : DscState} (hno : NonOverlap st) :
    st.range_entry_offsets.Pairwise
      (fun k k' => nonOverlapRel st k k' = true) := by
  haveI : IsTrans ℕ (fun k k' => nonOverlapRel st k k' = true) :=
    ⟨fun a b c => nonOverlapRel_trans st a b c⟩
  exact List.chain'_iff_pairwise.mp (nonOverlapChainB_chain' st _ hno)

/-- C3 counterexample: in the successfully parsed overlapping dsc
state, `v_offset = 55` lies inside the known range starting at 0
(`0 ≤ 55 < 0 + 100`), yet `FindVirtualOffsetEntries` returns the range
starting at 50 — not that range — so "for any v_offset lying inside a
known range, find returns exactly that range" fails on a parsed
file. -/
theorem dsc_find_overlap_counterexample :
    dscParseFileObject dscOverlapInput = .ok dscOverlapState ∧
    dscOverlapState.range_entries.lookup 0 =
      some ⟨0, 0, 0, 100⟩ ∧
    ((0 : ℕ) ≤ 55 ∧ (55 : ℕ) < 0 + 100) ∧
    FindVirtualOffsetEntries dscOverlapState 55 =
      .ok (some (⟨0, 50, 0, 10⟩,
        ⟨0, 4096, List.replicate 16 0, [47, 97], [97]⟩)) := by
  refine ⟨by rfl, by rfl, by decide, by rfl⟩

/-- C3 (amended): on a well-formed parsed dsc state,
`FindVirtualOffsetEntries` binary-searches for the greatest
`v_off ≤ v_offset`, accepts it only when
`v_off + data_len > v_offset` (else `(None, None)`), pairing it with
`uuid_entries[uuid_index]`; and when the ranges are pairwise
non-overlapping (which parsing does not guarantee), a `v_offset`
inside a known range yields exactly that range. -/
theorem dsc_find_virtual_offset (st : DscState) (v : ℕ)
    (hsorted : st.range_entry_offsets.Sorted (· < ·))
    (hperm : st.range_entry_offsets.Perm (st.range_entries.map Prod.fst))
    (hvoff : ∀ p ∈ st.range_entries, p.2.v_off = p.1)
    (hnum : st.num_range_entries = st.range_entry_offsets.length) :
    (∀ k e u, k ∈ st.range_entry_offsets → k ≤ v →
      (∀ j ∈ st.range_entry_offsets, j ≤ v → j ≤ k) →
      st.range_entries.lookup k = some e →
      e.v_off + e.data_len > v →
      st.uuid_entries.get? e.uuid_index = some u →
      FindVirtualOffsetEntries st v = .ok (some (e, u))) ∧
    (∀ k e, k ∈ st.range_entry_offsets → k ≤ v →
      (∀ j ∈ st.range_entry_offsets, j ≤ v → j ≤ k) →
      st.range_entries.lookup k = some e →
      e.v_off + e.data_len ≤ v →
      FindVirtualOffsetEntries st v = .ok none) ∧
    ((∀ k ∈ st.range_entry_offsets, v < k) →
      FindVirtualOffsetEntries st v = .ok none) ∧
    (NonOverlap st →
      ∀ k e u, (k, e) ∈ st.range_entries → k ≤ v → v < k + e.data_len →
        st.uuid_entries.get? e.uuid_index = some u →
        FindVirtualOffsetEntries st v = .ok (some (e, u))) := by
  have hsle : st.range_entry_offsets.Sorted (· ≤ ·) :=
    hsorted.imp le_of_lt
  have hspec := bisectRight_spec st.range_entry_offsets v hsle
    0 st.range_entry_offsets.length
    (by omega) (le_refl _)
    (fun i hi => absurd hi (Nat.not_lt_zero i))
    (fun i h1 h2 => absurd (lt_of_le_of_lt h1 h2) (lt_irrefl _))
  have hgreatest : ∀ k, k ∈ st.range_entry_offsets → k ≤ v →
      (∀ j ∈ st.range_entry_offsets, j ≤ v → j ≤ k) →
      0 < bisectRight st.range_entry_offsets v 0
          st.range_entry_offsets.length ∧
      st.range_entry_offsets.get?
        (bisectRight st.range_entry_offsets v 0
          st.range_entry_offsets.length - 1) = some k := by
    intro k hkmem hkle hkmax
    obtain ⟨⟨i, hilen⟩, hik⟩ := List.mem_iff_get.mp hkmem
    have hikD : st.range_entry_offsets.getD i 0 = k := by
      rw [getD_eq_get hilen, hik]
    have hile : i < bisectRight st.range_entry_offsets v 0
        st.range_entry_offsets.length := by
      by_contra hge
      push_neg at hge
      have := hspec.2.2.2 i hge hilen
      omega
    have hpos0 : 0 < bisectRight st.range_entry_offsets v 0
        st.range_entry_offsets.length := by omega
    have hp1len : bisectRight st.range_entry_offsets v 0
        st.range_entry_offsets.length - 1 <
        st.range_entry_offsets.length := by
      have := hspec.2.1
      omega
    have hle1 : st.range_entry_offsets.getD
        (bisectRight st.range_entry_offsets v 0
          st.range_entry_offsets.length - 1) 0 ≤ v :=
      hspec.2.2.1 _ (by omega)
    have hle2 : st.range_entry_offsets.getD
        (bisectRight st.range_entry_offsets v 0
          st.range_entry_offsets.length - 1) 0 ≤ k :=
      hkmax _ (getD_mem hp1len) hle1
    have hge2 : k ≤ st.range_entry_offsets.getD
        (bisectRight st.range_entry_offsets v 0
          st.range_entry_offsets.length - 1) 0 := by
      rw [← hikD]
      exact sorted_le_getD_mono hsle (by omega) hp1len
    refine ⟨hpos0, ?_⟩
    rw [List.get?_eq_get hp1len, ← getD_eq_get hp1len]
    rw [le_antisymm hle2 hge2]
  have h1 : ∀ k e u, k ∈ st.range_entry_offsets → k ≤ v →
      (∀ j ∈ st.range_entry_offsets, j ≤ v → j ≤ k) →
      st.range_entries.lookup k = some e →
      e.v_off + e.data_len > v →
      st.uuid_entries.get? e.uuid_index = some u →
      FindVirtualOffsetEntries st v = .ok (some (e, u)) := by
    intro k e u hkmem hkle hkmax hlook hacc huuid
    obtain ⟨hpos0, hget⟩ := hgreatest k hkmem hkle hkmax
    simp only [FindVirtualOffsetEntries, hnum]
    rw [if_pos hpos0]
    simp only [hget, hlook, huuid]
    rw [if_pos hacc]
  refine ⟨h1, ?_, ?_, ?_⟩
  · intro k e hkmem hkle hkmax hlook hacc
    obtain ⟨hpos0, hget⟩ := hgreatest k hkmem hkle hkmax
    simp only [FindVirtualOffsetEntries, hnum]
    rw [if_pos hpos0]
    simp only [hget, hlook]
    rw [if_neg (by omega)]
  · intro hall
    have hpos0 : bisectRight st.range_entry_offsets v 0
        st.range_entry_offsets.length = 0 := by
      by_contra hne
      have hp1len : bisectRight st.range_entry_offsets v 0
          st.range_entry_offsets.length - 1 <
          st.range_entry_offsets.length := by
        have := hspec.2.1
        omega
      have hle1 := hspec.2.2.1
        (bisectRight st.range_entry_offsets v 0
          st.range_entry_offsets.length - 1) (by omega)
      have := hall _ (getD_mem hp1len)
      omega
    simp only [FindVirtualOffsetEntries, hnum]
    rw [if_neg (by omega)]
  · intro hno k e u hmem hkle hvlt huuid
    have hLnd : st.range_entry_offsets.Nodup :=
      (hsorted.imp (fun h => ne_of_lt h))
    have hkeysnd : (st.range_entries.map Prod.fst).Nodup :=
      hperm.nodup_iff.mp hLnd
    have hlook : st.range_entries.lookup k = some e :=
      lookup_of_mem_nodup hkeysnd hmem
    have hkmem : k ∈ st.range_entry_offsets :=
      hperm.mem_iff.mpr (List.mem_map.mpr ⟨(k, e), hmem, rfl⟩)
    have hvoffk : e.v_off = k := hvoff (k, e) hmem
    refine h1 k e u hkmem hkle ?_ hlook (by omega) huuid
    intro j hj hjv
    by_contra hgt
    push_neg at hgt
    have hrel := pairwise_of_mem_of_lt (nonOverlap_pairwise hno)
      hsorted hkmem hj hgt
    unfold nonOverlapRel at hrel
    rw [hlook] at hrel
    rw [decide_eq_true_iff] at hrel
    omega

/-- Witness for `dsc_find_virtual_offset` at the parsed state of
`dscOverlapInput` and `v_offset = 55`. -/
theorem dsc_find_virtual_offset_witness :
    (∀ k e u, k ∈ dscOverlapState.range_entry_offsets → k ≤ 55 →
      (∀ j ∈ dscOverlapState.range_entry_offsets, j ≤ 55 → j ≤ k) →
      dscOverlapState.range_entries.lookup k = some e →
      e.v_off + e.data_len > 55 →
      dscOverlapState.uuid_entries.get? e.uuid_index = some u →
      FindVirtualOffsetEntries dscOverlapState 55 = .ok (some (e, u))) ∧
    (∀ k e, k ∈ dscOverlapState.range_entry_offsets → k ≤ 55 →
      (∀ j ∈ dscOverlapState.range_entry_offsets, j ≤ 55 → j ≤ k) →
      dscOverlapState.range_entries.lookup k = some e →
      e.v_off + e.data_len ≤ 55 →
      FindVirtualOffsetEntries dscOverlapState 55 = .ok none) ∧
    ((∀ k ∈ dscOverlapState.range_entry_offsets, 55 < k) →
      FindVirtualOffsetEntries dscOverlapState 55 = .ok none) ∧
    (NonOverlap dscOverlapState →
      ∀ k e u, (k, e) ∈ dscOverlapState.range_entries → k ≤ 55 →
        55 < k + e.data_len →
        dscOverlapState.uuid_entries.get? e.uuid_index = some u →
        FindVirtualOffsetEntries dscOverlapState 55 = .ok (some (e, u))) :=
  dsc_find_virtual_offset dscOverlapState 55 (by decide) (by decide)
    (by decide) (by decide)

/-- C7: a dsc file whose first four bytes are not `hcsd` does not make
`Parse` return `False`: the signature branch evaluates
`binascii.hexlify`, but `binascii` is never imported in `dsc_file.py`,
so it raises `NameError`, which `Parse` does not catch (it catches
only `IOError`/`OSError`/`struct.error`); a header with major version
3 raises `UserWarning`, likewise uncaught. -/
theorem dsc_signature_error_code_bug :
    dscParseFileObject dscBadSigInput = .error .nameError ∧
    dscParse dscBadSigInput = .error .nameError ∧
    dscParseFileObject dscMajor3Input = .error .userWarning ∧
    dscParse dscMajor3Input = .error .userWarning := by
  refine ⟨by rfl, by rfl, by rfl, by rfl⟩

/-- C4 counterexample: a tracepoint body failing with `NameError` does
NOT return the announced size — the handler at tracev3_file.py:775-776
re-raises `ImportError`, `NameError` and `UnboundLocalError`, so the
exception propagates and no `(24 + log_data_len, None)` result is
produced, contradicting "any exception ... still returns the announced
size". -/
theorem tracepoint_exception_counterexample :
    parseFirehoseTracepoint (List.replicate 24 0)
      (fun _ => .error .nameError) = .error .nameError ∧
    (Except.error PyExc.nameError ≠
      (Except.ok ((24 : ℕ), (none : Option LogEntry)) :
        Except PyExc (ℕ × Option LogEntry))) := by
  refine ⟨by rfl, ?_⟩
  intro h
  exact Except.noConfusion h

/-- C4 (amended): any exception raised inside the per-tracepoint try
block other than `ImportError`, `NameError` and `UnboundLocalError`
emits no record and still returns the announced `24 + log_data_len`
(so the cursor advances and chunk parsing continues); those three
exception kinds are re-raised instead, and a successful body returns
the record with the same announced size. -/
theorem tracepoint_exception_contract (tracepoint_data : List ℕ)
    (bodyFail bodyRaise bodyOk : TracepointHeader → Except PyExc LogEntry)
    (hdr : TracepointHeader) (e1 e2 : PyExc) (entry : LogEntry)
    (hhdr : unpackTracepointHeader tracepoint_data = .ok hdr)
    (hb1 : bodyFail hdr = .error e1)
    (he1 : tracepointReraised e1 = false)
    (hb2 : bodyRaise hdr = .error e2)
    (he2 : tracepointReraised e2 = true)
    (hb3 : bodyOk hdr = .ok entry) :
    parseFirehoseTracepoint tracepoint_data bodyFail =
      .ok (24 + hdr.log_data_len, none) ∧
    parseFirehoseTracepoint tracepoint_data bodyRaise = .error e2 ∧
    parseFirehoseTracepoint tracepoint_data bodyOk =
      .ok (24 + hdr.log_data_len, some entry) := by
  refine ⟨?_, ?_, ?_⟩
  · rw [parseFirehoseTracepoint]
    simp only [hhdr, hb1, he1]
    simp
  · rw [parseFirehoseTracepoint]
    simp only [hhdr, hb2, he2]
    simp
  · rw [parseFirehoseTracepoint]
    simp only [hhdr, hb3]

/-- Witness for `tracepoint_exception_contract`: a 24-zero-byte header
with constant bodies failing with `ValueError` (swallowed), `NameError`
(re-raised) and succeeding. -/
theorem tracepoint_exception_contract_witness :
    parseFirehoseTracepoint (List.replicate 24 0)
      (fun _ => .error .valueError) =
      .ok (24 + (⟨0, 0, 0, 0, 0, 0, 0, 0⟩ : TracepointHeader).log_data_len,
        none) ∧
    parseFirehoseTracepoint (List.replicate 24 0)
      (fun _ => .error .nameError) = .error .nameError ∧
    parseFirehoseTracepoint (List.replicate 24 0)
      (fun _ => .ok ⟨0, 0, "Default", ""⟩) =
      .ok (24 + (⟨0, 0, 0, 0, 0, 0, 0, 0⟩ : TracepointHeader).log_data_len,
        some ⟨0, 0, "Default", ""⟩) :=
  tracepoint_exception_contract (List.replicate 24 0)
    (fun _ => .error .valueError) (fun _ => .error .nameError)
    (fun _ => .ok ⟨0, 0, "Default", ""⟩)
    ⟨0, 0, 0, 0, 0, 0, 0, 0⟩ .valueError .nameError ⟨0, 0, "Default", ""⟩
    (by rfl) (by rfl) (by rfl) (by rfl) (by rfl) (by rfl)

/-- C8 counterexample: an oversize chunk with `data_len = 0` stores an
empty payload under key `(5 << 64) | 100`; a tracepoint referencing
that key finds it present, but Python's `if log_data:` treats the
empty bytes as falsy, so the payload is NOT used and the message
renders "<decode: missing data>" — the claim's "when the key is
present, the stored payload is used" fails for an empty payload. -/
theorem oversize_empty_payload_counterexample :
    ParseOversizeChunkData oversizeEmptyChunk [] =
      .ok [((5 <<< 64) ||| 100, [])] ∧
    (([((5 <<< 64) ||| 100, ([] : List ℕ))]).lookup
      ((5 <<< 64) ||| 100)).isSome = true ∧
    resolveOversizeRef [((5 <<< 64) ||| 100, [])] 5 100 "v=%s" =
      ⟨none, "<decode: missing data>"⟩ ∧
    oversizeLogMsg
      (resolveOversizeRef [((5 <<< 64) ||| 100, [])] 5 100 "v=%s")
      (fun _ fmt => fmt) = "<decode: missing data>" := by
  refine ⟨by rfl, by rfl, by rfl, by rfl⟩

/-- C8 (amended): a missing key — and likewise a present key with an
empty payload — leaves `log_data = None` and renders the message
"<decode: missing data>" while the record is still produced; a present
key with a non-empty payload supplies the stored bytes as the log-data
buffer with the format string untouched; and the oversize chunk parser
stores `chunk_data[32:32+data_len]` exactly under
`(data_ref_id << 64) | continuous_time`. -/
theorem oversize_fallthrough
    (missStore hitStore emptyStore store0 : List (ℕ × List ℕ))
    (data_ref_id ct : ℕ) (format_str : String)
    (recreate : List ℕ → String → String) (d chunk_data : List ℕ)
    (hmiss : missStore.lookup ((data_ref_id <<< 64) ||| ct) = none)
    (hhit : hitStore.lookup ((data_ref_id <<< 64) ||| ct) = some d)
    (hd : d ≠ [])
    (hempty : emptyStore.lookup ((data_ref_id <<< 64) ||| ct) = some [])
    (hchunk : (byteSlice chunk_data 16 16).length = 16) :
    resolveOversizeRef missStore data_ref_id ct format_str =
      ⟨none, "<decode: missing data>"⟩ ∧
    oversizeLogMsg
      (resolveOversizeRef missStore data_ref_id ct format_str) recreate =
      "<decode: missing data>" ∧
    resolveOversizeRef hitStore data_ref_id ct format_str =
      ⟨some d, format_str⟩ ∧
    oversizeLogMsg
      (resolveOversizeRef hitStore data_ref_id ct format_str) recreate =
      recreate d format_str ∧
    resolveOversizeRef emptyStore data_ref_id ct format_str =
      ⟨none, "<decode: missing data>"⟩ ∧
    ParseOversizeChunkData chunk_data store0 =
      .ok (storeSet store0
        ((leNat (byteSlice chunk_data 24 4) <<< 64) |||
          leNat (byteSlice chunk_data 16 8))
        (byteSlice chunk_data 32 (leNat (byteSlice chunk_data 28 4)))) := by
  have hdem : d.isEmpty = false := by
    cases d with
    | nil => exact absurd rfl hd
    | cons a as => rfl
  refine ⟨?_, ?_, ?_, ?_, ?_, ?_⟩
  · rw [resolveOversizeRef, hmiss]
  · rw [resolveOversizeRef, hmiss]
    rfl
  · rw [resolveOversizeRef, hhit]
    simp [hdem]
  · rw [oversizeLogMsg, resolveOversizeRef, hhit]
    simp [hdem]
  · rw [resolveOversizeRef, hempty]
    rfl
  · rw [ParseOversizeChunkData, if_pos hchunk]

/-- Witness for `oversize_fallthrough`: stores keyed by
`(5 << 64) | 100` (absent, payload `[66]`, payload `[]`), and the
concrete empty oversize chunk. -/
theorem oversize_fallthrough_witness :
    resolveOversizeRef [] 5 100 "v=%s" =
      ⟨none, "<decode: missing data>"⟩ ∧
    oversizeLogMsg (resolveOversizeRef [] 5 100 "v=%s")
      (fun _ fmt => fmt) = "<decode: missing data>" ∧
    resolveOversizeRef [((5 <<< 64) ||| 100, [66])] 5 100 "v=%s" =
      ⟨some [66], "v=%s"⟩ ∧
    oversizeLogMsg
      (resolveOversizeRef [((5 <<< 64) ||| 100, [66])] 5 100 "v=%s")
      (fun _ fmt => fmt) = (fun (_ : List ℕ) (fmt : String) => fmt) [66] "v=%s" ∧
    resolveOversizeRef [((5 <<< 64) ||| 100, [])] 5 100 "v=%s" =
      ⟨none, "<decode: missing data>"⟩ ∧
    ParseOversizeChunkData oversizeEmptyChunk [] =
      .ok (storeSet []
        ((leNat (byteSlice oversizeEmptyChunk 24 4) <<< 64) |||
          leNat (byteSlice oversizeEmptyChunk 16 8))
        (byteSlice oversizeEmptyChunk 32
          (leNat (byteSlice oversizeEmptyChunk 28 4)))) :=
  oversize_fallthrough [] [((5 <<< 64) ||| 100, [66])]
    [((5 <<< 64) ||| 100, [])] [] 5 100 "v=%s" (fun _ fmt => fmt)
    [66] oversizeEmptyChunk (by rfl) (by rfl) (by simp) (by rfl) (by rfl)

/-- C10: when a sub-chunk's `(proc_id1, proc_id2)` is absent from the
current ChunkMeta's ProcInfos, `GetProcInfo` returns `None`, the
skip branch in `ProcessDataChunk` falls through to
`pid = proc_info.pid`, raising `AttributeError`; `Parse` catches it
(tracev3_file.py:1699) and returns `False`, aborting the whole
tracev3 file — the intended skip-and-continue never completes. -/
theorem missing_procinfo_aborts_file (chunk_data : List ℕ) (pos : ℕ)
    (chunk_meta : ChunkMeta)
    (hhdr : (byteSlice chunk_data pos 16).length = 16)
    (hbody : (byteSlice chunk_data (pos + 16) 16).length = 16)
    (hmiss : chunk_meta.ProcInfos.lookup
      (leNat (byteSlice chunk_data (pos + 16 + 8) 4) |||
        (leNat (byteSlice chunk_data (pos + 16) 8) <<< 32)) = none) :
    GetProcInfo (leNat (byteSlice chunk_data (pos + 16) 8))
      (leNat (byteSlice chunk_data (pos + 16 + 8) 4)) chunk_meta =
      none ∧
    processDataChunkStep chunk_data pos chunk_meta =
      .error .attributeError ∧
    traceV3Caught .attributeError = true ∧
    traceV3Parse (.error .attributeError) = .ok false := by
  have hget : GetProcInfo (leNat (byteSlice chunk_data (pos + 16) 8))
      (leNat (byteSlice chunk_data (pos + 16 + 8) 4)) chunk_meta =
      none := hmiss
  refine ⟨hget, ?_, rfl, rfl⟩
  rw [processDataChunkStep, if_pos hhdr, if_pos hbody]
  simp only [hget, pyAttr]

/-- Witness for `missing_procinfo_aborts_file`: a 32-zero-byte
sub-chunk against an empty ProcInfos table. -/
theorem missing_procinfo_aborts_file_witness :
    GetProcInfo (leNat (byteSlice (List.replicate 32 0) (0 + 16) 8))
      (leNat (byteSlice (List.replicate 32 0) (0 + 16 + 8) 4)) ⟨[]⟩ =
      none ∧
    processDataChunkStep (List.replicate 32 0) 0 ⟨[]⟩ =
      .error .attributeError ∧
    traceV3Caught .attributeError = true ∧
    traceV3Parse (.error .attributeError) = .ok false :=
  missing_procinfo_aborts_file (List.replicate 32 0) 0 ⟨[]⟩
    (by rfl) (by rfl) (by rfl)

end UnifiedLog
